import Mathlib

/-!
Verification development for the mcp-zenodo repository.

The similarity engine, the compare/related-records tools, the tool
registry/dispatcher and the download cache logic are embedded shallowly:
Python strings become `String`/`List Char`, Python floats that only ever
hold exact ratios of small integers become `ℚ`, Python `dict`s become
association lists with insertion-order upsert semantics, and fallible
operations return `Option`/`Except`.  Every definition is translated from
the corresponding source function (file and line references in the doc
comments); spec-side reference definitions are clearly marked as such.
-/

/- ## Minimum-of-three toolkit

Python's `min(a, b, c)` on naturals.  The DP recurrences of the
Levenshtein implementation are stated with it, and a small collection of
order lemmas lets us prove the required rearrangement identities without
blowing up `omega`. -/

def min3 (a b c : ℕ) : ℕ := min (min a b) c

/- ## Classic Levenshtein distance

Reference definition: the textbook first-character recurrence with unit
costs for insertion, deletion and substitution (the "classic unit-cost
Levenshtein distance" of the specification). -/

/-- Unit substitution cost, as in the source line
`substitutions = previous_row[j] + (c1 != c2)`. -/

def levCost (c1 c2 : Char) : ℕ := if c1 = c2 then 0 else 1

/-- Classic unit-cost Levenshtein distance, defined by the textbook
recurrence on first characters. -/

def levAux : List Char → List Char → ℕ
  | [], ys => ys.length
  | _ :: xs, [] => xs.length + 1
  | x :: xs, y :: ys =>
      min3 (levAux xs (y :: ys) + 1) (levAux (x :: xs) ys + 1)
        (levAux xs ys + levCost x y)
termination_by xs ys => xs.length + ys.length
decreasing_by all_goals simp_arith

/- ## The source's dynamic-programming implementation

Embeds `_levenshtein_distance` from
`src/mcp-zenodo-fastapi/server/tools/compare_tool.py` lines 294-320: the
argument swap putting the longer string first, the `len(s2) == 0` base
case, and the single-row rolling-buffer DP
(`previous_row = range(len(s2)+1)`; for each `c1` in `s1` build
`current_row` from `[i+1]` by
`min(previous_row[j+1]+1, current_row[j]+1, previous_row[j]+(c1!=c2))`;
answer `previous_row[-1]`). -/

/-- One inner loop of the DP: given the character `c1` of `s1`, the
remaining characters of `s2`, the rest of `previous_row` (headed by
`previous_row[j]`) and the last cell `left` of `current_row`, produce the
remaining cells of `current_row`.  `ps.headD 0` is `previous_row[j+1]`;
the mismatched-length clauses are unreachable in use. -/

def levRowAux (c1 : Char) : List Char → List ℕ → ℕ → List ℕ
  | [], _, _ => []
  | _ :: _, [], _ => []
  | c2 :: cs, p :: ps, left =>
      let cell := min3 (ps.headD 0 + 1) (left + 1) (p + levCost c1 c2)
      cell :: levRowAux c1 cs ps cell

/-- The outer loop of the DP over the characters of `s1`; `i` is the
0-based index of the current character, the new row starts with `i + 1`. -/

def levLoop (s2 : List Char) : List Char → List ℕ → ℕ → List ℕ
  | [], prev, _ => prev
  | c1 :: rest, prev, i =>
      levLoop s2 rest ((i + 1) :: levRowAux c1 s2 prev (i + 1)) (i + 1)

/-- Body of `_levenshtein_distance` after the argument swap. -/

def levenshtein_distance_go (s1 s2 : List Char) : ℕ :=
  if s2.length = 0 then s1.length
  else (levLoop s2 s1 (List.range (s2.length + 1)) 0).getLastD 0

/-- `_levenshtein_distance(s1, s2)` (compare_tool.py lines 294-320). -/

def levenshtein_distance (s1 s2 : List Char) : ℕ :=
  if s1.length < s2.length then levenshtein_distance_go s2 s1
  else levenshtein_distance_go s1 s2

/- ### Row invariant: the DP rows hold classic distances of reversed
prefixes. -/

/-- Specification of a DP row (without its index-0 cell): the cells that
extend the reversed `s2`-prefix `br` by successive characters of `bs`,
measured against the reversed `s1`-prefix `ar`. -/

def rowFn (ar : List Char) : List Char → List Char → List ℕ
  | _, [] => []
  | br, c :: cs => levAux ar (c :: br) :: rowFn ar (c :: br) cs

/- ## Python string primitives

`str.lower()`, no-argument `str.split()` and `str`/`repr` rendering, as
used by the similarity code.  `.lower()` is modelled per character (the
inputs handled by these tools are ordinary ASCII-ish metadata strings). -/

/-- Python `s.lower()`. -/

def pyLower (s : String) : String := ⟨s.data.map Char.toLower⟩

/-- Helper for Python `s.split()`: accumulate the current word (reversed)
while scanning; runs of whitespace produce no empty words. -/

def pySplitAux : List Char → List Char → List String
  | [], acc => if acc.isEmpty then [] else [⟨acc.reverse⟩]
  | c :: cs, acc =>
      if c.isWhitespace then
        if acc.isEmpty then pySplitAux cs []
        else (⟨acc.reverse⟩ : String) :: pySplitAux cs []
      else pySplitAux cs (c :: acc)

/-- Python `s.split()` with no separator: split on runs of whitespace,
discarding empty tokens. -/

def pySplit (s : String) : List String := pySplitAux s.data []

/-- Single quote, double quote and backslash characters (written via
code points to keep the embedding free of delicate literals). -/

def sqChar : Char := Char.ofNat 39

def dqChar : Char := Char.ofNat 34

def bsChar : Char := Char.ofNat 92

/-- Backslash-escape the quote character and backslashes, as Python's
`repr` does for strings (escaping of non-printable characters is not
modelled; the values compared here do not contain any). -/

def pyEscape (q : Char) (s : String) : String :=
  ⟨s.data.foldr (fun c acc =>
    if c = bsChar ∨ c = q then bsChar :: c :: acc else c :: acc) []⟩

/-- Python `repr` of a string: single-quoted, or double-quoted when the
string contains a single quote but no double quote. -/

def pyRepr (s : String) : String :=
  let q := if s.data.contains sqChar ∧ ¬ s.data.contains dqChar then dqChar else sqChar
  ⟨q :: (pyEscape q s).data ++ [q]⟩

/- ## Field values of the compare tool

`extract_field_value` (compare_tool.py lines 126-133) produces either a
plain string or a list of strings (creator names / keywords), and
`calculate_similarity` dispatches on that shape. -/

/-- A Python value flowing through the compare tool: a string or a list
of strings. -/

inductive Value where
  | str (s : String)
  | list (xs : List String)
deriving DecidableEq

/-- Python `str(value)` for the values above (`repr`-rendered elements
inside list brackets). -/

def pyStr : Value → String
  | .str s => s
  | .list xs => "[" ++ String.intercalate ", " (xs.map pyRepr) ++ "]"

/- ## difflib.SequenceMatcher

`calculate_similarity` (compare_tool.py lines 135-148) scores its string
branch with `SequenceMatcher(None, str1, str2).ratio()`.  The matcher is
embedded from CPython's `difflib` with `isjunk = None` (so the junk set
is empty) and the default `autojunk` heuristic. -/

/-- `b2j` before the autojunk purge: the ascending list of positions of
`c` in `b`. -/

def b2jAll (b : List Char) (c : Char) : List ℕ :=
  (List.range b.length).filter (fun j => b.getD j ' ' = c)

/-- The autojunk rule of `SequenceMatcher.__chain_b`: when `len(b) >= 200`,
characters occurring more than `len(b) // 100 + 1` times are "popular"
and removed from `b2j`. -/

def isPopular (b : List Char) (c : Char) : Bool :=
  b.length ≥ 200 && (b2jAll b c).length > b.length / 100 + 1

/-- `b2j` as used by `find_longest_match`. -/

def b2j (b : List Char) (c : Char) : List ℕ :=
  if isPopular b c then [] else b2jAll b c

/-- A difflib `Match(a, b, size)` triple. -/

structure SMatch where
  besti : ℕ
  bestj : ℕ
  size : ℕ
deriving DecidableEq

/-- Lookup in the `j2len` dictionary (default 0). -/

def jGet (m : List (ℕ × ℕ)) (j : ℕ) : ℕ :=
  ((m.find? (fun p => p.1 = j)).map Prod.snd).getD 0

/-- Inner loop of `find_longest_match` over the occurrence list of `a[i]`
in `b`: `continue` below `blo`, `break` at `bhi`, extend the run ending
at `(i-1, j-1)` and remember the best strictly longer run.  Python's
`j2len.get(j-1, 0)` reads key `-1` (absent, hence 0) when `j = 0`. -/

def flmInner (i blo bhi : ℕ) (j2len : List (ℕ × ℕ)) :
    List ℕ → List (ℕ × ℕ) → SMatch → List (ℕ × ℕ) × SMatch
  | [], acc, best => (acc, best)
  | j :: rest, acc, best =>
      if j < blo then flmInner i blo bhi j2len rest acc best
      else if bhi ≤ j then (acc, best)
      else
        let k := (if j = 0 then 0 else jGet j2len (j - 1)) + 1
        let best' := if best.size < k then ⟨i + 1 - k, j + 1 - k, k⟩ else best
        flmInner i blo bhi j2len rest ((j, k) :: acc) best'

/-- Outer loop of `find_longest_match` over the indices `[alo, ahi)` of
`a`; `j2len` is rebuilt for every row. -/

def flmOuter (a b : List Char) (blo bhi : ℕ) :
    List ℕ → List (ℕ × ℕ) → SMatch → SMatch
  | [], _, best => best
  | i :: rest, j2len, best =>
      let r := flmInner i blo bhi j2len (b2j b (a.getD i ' ')) [] best
      flmOuter a b blo bhi rest r.1 r.2

/-- One of the `while` extension loops of `find_longest_match`, growing
the match to the left over characters whose junk status equals
`junkFlag`; the fuel (`besti` at the call site) bounds the iteration. -/

def extendLeft (a b : List Char) (bjunk : List Char) (junkFlag : Bool)
    (alo blo : ℕ) : ℕ → SMatch → SMatch
  | 0, m => m
  | fuel + 1, m =>
      if alo < m.besti ∧ blo < m.bestj ∧
          (bjunk.contains (b.getD (m.bestj - 1) ' ')) = junkFlag ∧
          a.getD (m.besti - 1) ' ' = b.getD (m.bestj - 1) ' ' then
        extendLeft a b bjunk junkFlag alo blo fuel
          ⟨m.besti - 1, m.bestj - 1, m.size + 1⟩
      else m

/-- Rightward counterpart of `extendLeft`; the fuel (`ahi` at the call
site) bounds the iteration. -/

def extendRight (a b : List Char) (bjunk : List Char) (junkFlag : Bool)
    (ahi bhi : ℕ) : ℕ → SMatch → SMatch
  | 0, m => m
  | fuel + 1, m =>
      if m.besti + m.size < ahi ∧ m.bestj + m.size < bhi ∧
          (bjunk.contains (b.getD (m.bestj + m.size) ' ')) = junkFlag ∧
          a.getD (m.besti + m.size) ' ' = b.getD (m.bestj + m.size) ' ' then
        extendRight a b bjunk junkFlag ahi bhi fuel ⟨m.besti, m.bestj, m.size + 1⟩
      else m

/-- `SequenceMatcher.find_longest_match` with `isjunk = None`: the junk
set is empty, so the two junk-absorbing `while` loops never fire, but they
are embedded all the same. -/

def find_longest_match (a b : List Char) (alo ahi blo bhi : ℕ) : SMatch :=
  let bjunk : List Char := []
  let best := flmOuter a b blo bhi ((List.range ahi).drop alo) [] ⟨alo, blo, 0⟩
  let best := extendLeft a b bjunk false alo blo best.besti best
  let best := extendRight a b bjunk false ahi bhi ahi best
  let best := extendLeft a b bjunk true alo blo best.besti best
  let best := extendRight a b bjunk true ahi bhi ahi best
  best

/-- `SequenceMatcher.get_matching_blocks`, in its natural recursive form:
find the longest match, recurse into the two unknown regions when they
are nonempty on both sides.  (CPython drives the same recursion with an
explicit queue and then sorts and merges adjacent blocks, which changes
neither the set of matched positions nor the total matched size used by
`ratio`.)  The fuel argument bounds the recursion depth; the measure
`(ahi - alo) + (bhi - blo)` strictly decreases at each recursive call, so
`a.length + b.length + 1` is always enough fuel at top level. -/

def matching_blocks_go (a b : List Char) : ℕ → ℕ → ℕ → ℕ → ℕ → List SMatch
  | 0, _, _, _, _ => []
  | fuel + 1, alo, ahi, blo, bhi =>
      let m := find_longest_match a b alo ahi blo bhi
      if m.size = 0 then []
      else
        (if alo < m.besti ∧ blo < m.bestj then
          matching_blocks_go a b fuel alo m.besti blo m.bestj
        else []) ++
        m :: (if m.besti + m.size < ahi ∧ m.bestj + m.size < bhi then
          matching_blocks_go a b fuel (m.besti + m.size) ahi (m.bestj + m.size) bhi
        else [])

/-- `SequenceMatcher.get_matching_blocks` (without the trailing
`(len(a), len(b), 0)` dummy, which contributes nothing to `ratio`). -/

def get_matching_blocks (a b : List Char) : List SMatch :=
  matching_blocks_go a b (a.length + b.length + 1) 0 a.length 0 b.length

/-- `SequenceMatcher.ratio()`:
`2 * (total size of matching blocks) / (len(a) + len(b))`, and `1.0` for
two empty sequences. -/

def smRatio (a b : List Char) : ℚ :=
  let matched := ((get_matching_blocks a b).map (fun m => m.size)).sum
  if a.length + b.length ≠ 0 then
    2 * (matched : ℚ) / ((a.length : ℚ) + (b.length : ℚ))
  else 1

/- ## Compare-records tool

Embeds `src/mcp-zenodo-fastapi/server/tools/compare_tool.py`: the field
accessor (lines 126-133), the generic similarity (lines 135-148), the
Levenshtein-backed string similarity (lines 240-266) and the
`compare_records` orchestration (lines 52-124). -/

namespace CompareTool

/-- A creator entry; `name` is optional, read as `creator.get('name', '')`. -/
structure Creator where
  name : Option String
deriving DecidableEq

/-- The metadata document handed to `extract_field_value`: the two
list-shaped keys the accessor special-cases, plus the remaining
(string-valued) keys as an association list; `metadata.get(k, default)`
yields the structure's defaults when a key is absent. -/
structure Metadata where
  creators : List Creator := []
  keywords : List String := []
  fields : List (String × Value) := []
deriving DecidableEq

/-- `extract_field_value(metadata, field)` (compare_tool.py lines 126-133). -/
def extract_field_value (metadata : Metadata) (field : String) : Value :=
  if field = "creators" then
    .list (metadata.creators.map (fun c => c.name.getD ""))
  else if field = "keywords" then .list metadata.keywords
  else ((metadata.fields.find? (fun p => p.1 = field)).map Prod.snd).getD (.str "")

/-- `calculate_similarity(value1, value2)` (compare_tool.py lines
135-148): Jaccard similarity of lower-cased string sets when both values
are lists, otherwise `SequenceMatcher(None, str(v1).lower(),
str(v2).lower()).ratio()`. -/
def calculate_similarity (value1 value2 : Value) : ℚ :=
  match value1, value2 with
  | .list l1, .list l2 =>
      let set1 := (l1.map pyLower).toFinset
      let set2 := (l2.map pyLower).toFinset
      let inter := (set1 ∩ set2).card
      let union := (set1 ∪ set2).card
      if 0 < union then (inter : ℚ) / (union : ℚ) else 0
  | v1, v2 => smRatio (pyLower (pyStr v1)).data (pyLower (pyStr v2)).data

/-- `_calculate_string_similarity(str1, str2)` (compare_tool.py lines
240-266): 0.0 when either string is empty, otherwise the normalized
Levenshtein score of the lower-cased strings. -/
def _calculate_string_similarity (str1 str2 : String) : ℚ :=
  if str1 = "" ∨ str2 = "" then 0
  else
    let s1 := pyLower str1
    let s2 := pyLower str2
    let distance := levenshtein_distance s1.data s2.data
    let max_length := max s1.length s2.length
    if max_length = 0 then 1
    else 1 - (distance : ℚ) / (max_length : ℚ)

/-- Request model for `compare_records`.

Modelled from the spec: the FastAPI variant imports
`CompareRecordsRequest` from a `models/request.py` that is not among the
available sources; per spec §4.4 ("default: `title, authors, topics,
publication_date`") — and identically in the sibling
`src/server/models/request.py` line 66 — `compare_fields` defaults to
that list when the caller does not pass one. -/
structure CompareRecordsRequest where
  record_ids : List String
  compare_fields : Option (List String) := some ["title", "authors", "topics", "publication_date"]

/-- Insertion-ordered upsert, the behaviour of `d[k] = v` on a Python
`dict`: an existing key keeps its position and gets the new value, a new
key is appended. -/
def dictInsert {α : Type} (l : List (String × α)) (k : String) (v : α) :
    List (String × α) :=
  if l.any (fun p => p.1 = k) then
    l.map (fun p => if p.1 = k then (k, v) else p)
  else l ++ [(k, v)]

/-- The fetch loop of `compare_records` (lines 69-75): ids whose fetch
raises are skipped (the exception is only logged), the rest populate the
`records_metadata` dict in order. -/
def fetchRecords (record_ids : List String)
    (get_metadata : String → Option Metadata) : List (String × Metadata) :=
  record_ids.foldl (fun acc record_id =>
    match get_metadata record_id with
    | some m => dictInsert acc record_id m
    | none => acc) []

/-- `for i, x in enumerate(l): for y in l[i+1:]` — all ordered pairs. -/
def orderedPairs {α : Type} : List α → List (α × α)
  | [] => []
  | x :: xs => (xs.map (fun y => (x, y))) ++ orderedPairs xs

/-- One entry of a per-field `differences` list (both raw values passed
through `str()`). -/
structure DiffEntry where
  record_id1 : String
  record_id2 : String
  value1 : String
  value2 : String
deriving DecidableEq

/-- Per-field data of the response. -/
structure FieldComparison where
  similarity_scores : List (String × ℚ)
  average_similarity : ℚ
deriving DecidableEq

/-- `field_values` of one field (line 85-87). -/
def fieldValues (records : List (String × Metadata)) (field : String) :
    List (String × Value) :=
  records.map (fun p => (p.1, extract_field_value p.2 field))

/-- The `f"{record_id1}_{record_id2}"` key of a pairwise score. -/
def scoreKey (id1 id2 : String) : String := id1 ++ "_" ++ id2

/-- The `similarity_scores` dict of one field (lines 90-97). -/
def similarityScores (values : List (String × Value)) : List (String × ℚ) :=
  (orderedPairs values).foldl (fun acc p =>
    dictInsert acc (scoreKey p.1.1 p.2.1) (calculate_similarity p.1.2 p.2.2)) []

/-- The pairwise scores of one field as a plain list, in pair order. -/
def pairScoreList (values : List (String × Value)) : List ℚ :=
  (orderedPairs values).map (fun p => calculate_similarity p.1.2 p.2.2)

/-- The `field_differences` list of one field (lines 99-105): every pair
scoring strictly below 0.8, with both raw values stringified. -/
def fieldDifferences (values : List (String × Value)) : List DiffEntry :=
  (orderedPairs values).filterMap (fun p =>
    if calculate_similarity p.1.2 p.2.2 < 4 / 5 then
      some ⟨p.1.1, p.2.1, pyStr p.1.2, pyStr p.2.2⟩
    else none)

/-- Arithmetic mean (`np.mean`) of a list of scores.  (On the empty list
`np.mean` yields NaN; the embedding returns 0 there, and every statement
about means below is made under a nonemptiness hypothesis.) -/
def listMean (l : List ℚ) : ℚ := l.sum / (l.length : ℚ)

/-- `average_similarity` of one field (line 109):
`np.mean(similarity_scores.values()) if similarity_scores else 0.0`. -/
def averageSimilarity (values : List (String × Value)) : ℚ :=
  let scores := similarityScores values
  if scores.isEmpty then 0 else listMean (scores.map Prod.snd)

/-- The `field_comparisons` dict (lines 84-111). -/
def buildFieldComparisons (records : List (String × Metadata))
    (compare_fields : List String) : List (String × FieldComparison) :=
  compare_fields.foldl (fun acc field =>
    dictInsert acc field
      ⟨similarityScores (fieldValues records field),
        averageSimilarity (fieldValues records field)⟩) []

/-- The `differences` dict (lines 82, 111). -/
def buildDifferences (records : List (String × Metadata))
    (compare_fields : List String) : List (String × List DiffEntry) :=
  compare_fields.foldl (fun acc field =>
    dictInsert acc field (fieldDifferences (fieldValues records field))) []

/-- `overall_similarity` (lines 114-117): mean of the per-field averages. -/
def overallSimilarity (fcs : List (String × FieldComparison)) : ℚ :=
  listMean (fcs.map (fun p => p.2.average_similarity))

structure CompareRecordsResponse where
  record_ids : List String
  field_comparisons : List (String × FieldComparison)
  overall_similarity : ℚ
  differences : List (String × List DiffEntry)
deriving DecidableEq

/-- The error raised at line 78
(`ValueError("At least two valid records are required for comparison")`),
the spec's `InsufficientRecordsError`. -/
inductive CompareError where
  | insufficientRecords
deriving DecidableEq

/-- `compare_fields = request.compare_fields or ['title', 'creators',
'description', 'keywords']` (line 63): Python `or` replaces both `None`
and the empty list by the fallback. -/
def compareFieldsUsed (request : CompareRecordsRequest) : List String :=
  match request.compare_fields with
  | some l => if l.isEmpty then ["title", "creators", "description", "keywords"] else l
  | none => ["title", "creators", "description", "keywords"]

/-- The successful payload of `compare_records` (lines 80-124). -/
def compareOk (record_ids : List String) (compare_fields : List String)
    (records : List (String × Metadata)) : CompareRecordsResponse :=
  let fcs := buildFieldComparisons records compare_fields
  { record_ids := record_ids
    field_comparisons := fcs
    overall_similarity := overallSimilarity fcs
    differences := buildDifferences records compare_fields }

/-- `compare_records(request)` (compare_tool.py lines 52-124); the
external fetch collaborator is a parameter, `none` standing for a fetch
that raises. -/
def compare_records (request : CompareRecordsRequest)
    (get_metadata : String → Option Metadata) :
    Except CompareError CompareRecordsResponse :=
  let records_metadata := fetchRecords request.record_ids get_metadata
  if records_metadata.length < 2 then .error .insufficientRecords
  else .ok (compareOk request.record_ids (compareFieldsUsed request) records_metadata)

end CompareTool

/- ## Related-records tool

Embeds `src/server/tools/related_records_tool.py`: search-term
extraction (lines 96-122), the similarity metrics (lines 124-199) and the
`get_related_records` orchestration (lines 49-94). -/

namespace RelatedTool

/-- A creator dict: `name` optional (`"name" in creator` /
`creator.get("name", "")`). -/
structure Creator where
  name : Option String
deriving DecidableEq

/-- The nested `metadata` dict of a record, with the three keys this tool
reads, each optional (`"title" in metadata` vs `metadata.get("title", "")`). -/
structure RecMeta where
  title : Option String := none
  keywords : Option (List String) := none
  creators : Option (List Creator) := none
deriving DecidableEq

/-- A record document: `record["id"]` and `record.get("metadata", {})`. -/
structure PyRecord where
  id : String
  metadata : RecMeta := {}
deriving DecidableEq

/-- `_extract_search_terms(record)` (lines 96-122): the title if present,
then all keywords, then every creator name that is present. -/
def _extract_search_terms (record : PyRecord) : List String :=
  (match record.metadata.title with
    | some t => [t]
    | none => [])
  ++ record.metadata.keywords.getD []
  ++ (record.metadata.creators.getD []).filterMap (fun c => c.name)

/-- `_calculate_string_similarity(str1, str2)` (lines 155-178): word-level
Jaccard overlap of whitespace-split token sets, 0.0 when either string is
empty or the union of token sets is empty. -/
def _calculate_string_similarity (str1 str2 : String) : ℚ :=
  if str1 = "" ∨ str2 = "" then 0
  else
    let words1 := (pySplit str1).toFinset
    let words2 := (pySplit str2).toFinset
    let inter := (words1 ∩ words2).card
    let union := (words1 ∪ words2).card
    if union = 0 then 0 else (inter : ℚ) / (union : ℚ)

/-- `_calculate_set_similarity(set1, set2)` (lines 180-199): Jaccard
similarity, 0.0 when either set (or the union) is empty. -/
def _calculate_set_similarity (set1 set2 : Finset String) : ℚ :=
  if set1 = ∅ ∨ set2 = ∅ then 0
  else
    let inter := (set1 ∩ set2).card
    let union := (set1 ∪ set2).card
    if union = 0 then 0 else (inter : ℚ) / (union : ℚ)

/-- The lower-cased keyword set of a record (lines 143-144). -/
def keywordSet (r : PyRecord) : Finset String :=
  ((r.metadata.keywords.getD []).map pyLower).toFinset

/-- The lower-cased creator-name set of a record (lines 148-149); a
missing name contributes `""`. -/
def creatorSet (r : PyRecord) : Finset String :=
  ((r.metadata.creators.getD []).map (fun c => pyLower (c.name.getD ""))).toFinset

/-- `_calculate_similarity(record1, record2)` (lines 124-153): the
weighted composite `0.4 * title + 0.3 * keywords + 0.3 * creators`. -/
def _calculate_similarity (record1 record2 : PyRecord) : ℚ :=
  let title_similarity :=
    _calculate_string_similarity (pyLower (record1.metadata.title.getD ""))
      (pyLower (record2.metadata.title.getD ""))
  let keyword_similarity := _calculate_set_similarity (keywordSet record1) (keywordSet record2)
  let creator_similarity := _calculate_set_similarity (creatorSet record1) (creatorSet record2)
  (4 : ℚ) / 10 * title_similarity + 3 / 10 * keyword_similarity + 3 / 10 * creator_similarity

/-- One entry of the `related_records` result list. -/
structure RelatedEntry where
  record_id : String
  title : String
  similarity : ℚ
deriving DecidableEq

/-- The search-and-filter loop of `get_related_records` (lines 73-84):
for every search term, every hit other than the original record whose
composite similarity reaches the threshold becomes an entry. -/
def relatedCandidates (record_id : String) (record : PyRecord)
    (search : String → ℕ → List PyRecord) (max_results : ℕ)
    (similarity_threshold : ℚ) : List RelatedEntry :=
  ((_extract_search_terms record).map (fun term =>
    (search term max_results).filterMap (fun result =>
      if result.id ≠ record_id then
        let similarity := _calculate_similarity record result
        if similarity_threshold ≤ similarity then
          some ⟨result.id, result.metadata.title.getD "", similarity⟩
        else none
      else none))).flatten

/-- The sort order of line 87 (`key=lambda x: x["similarity"],
reverse=True`). -/
def relOrder (x y : RelatedEntry) : Prop := y.similarity ≤ x.similarity

instance : DecidableRel relOrder := fun x y =>
  inferInstanceAs (Decidable (y.similarity ≤ x.similarity))

instance : IsTotal RelatedEntry relOrder :=
  ⟨fun a b => le_total b.similarity a.similarity⟩

instance : IsTrans RelatedEntry relOrder :=
  ⟨fun _ _ _ h1 h2 => le_trans h2 h1⟩

structure RelatedResponse where
  record_id : String
  related_records : List RelatedEntry
  total_count : ℕ
deriving DecidableEq

/-- `get_related_records(record_id, max_results, similarity_threshold)`
(lines 49-94).  The already-fetched metadata of the target record and the
upstream search (called with `max_results` as its size) are parameters.
Python's `list.sort` is a stable sort, modelled by insertion sort. -/
def get_related_records (record_id : String) (record : PyRecord)
    (search : String → ℕ → List PyRecord) (max_results : ℕ)
    (similarity_threshold : ℚ) : RelatedResponse :=
  let related := relatedCandidates record_id record search max_results similarity_threshold
  let sorted := List.insertionSort relOrder related
  let final := sorted.take max_results
  { record_id := record_id
    related_records := final
    total_count := final.length }

end RelatedTool

/- ## Tool registry and dispatcher

Embeds `src/server/tools/registry.py`: the registry dict mapping a tool
name to its metadata and handler, `get_tool` (lines 42-51) and
`dispatch_tool_call` (lines 68-81).  A handler takes the whole argument
mapping (`**arguments` keyword expansion) and its result is returned
untouched; `Args` and `Result` stay abstract. -/

namespace Registry

/-- One registry entry (name, description, parameter schema, handler);
schemas are opaque here. -/
structure ToolEntry (Args Result : Type) where
  name : String
  description : String
  handler : Args → Result

/-- The error raised at line 81 (`ValueError(f"Tool {name} not found")`),
the spec's `ToolNotFound`, carrying the requested name. -/
inductive DispatchError where
  | toolNotFound (name : String)
deriving DecidableEq

/-- `get_tool(name)` (registry.py lines 42-51): dict lookup, `None` when
absent. -/
def get_tool {Args Result : Type} (registry : List (String × ToolEntry Args Result))
    (name : String) : Option (ToolEntry Args Result) :=
  (registry.find? (fun p => p.1 = name)).map Prod.snd

/-- `dispatch_tool_call(name, arguments)` (registry.py lines 68-81). -/
def dispatch_tool_call {Args Result : Type}
    (registry : List (String × ToolEntry Args Result)) (name : String)
    (arguments : Args) : Except DispatchError Result :=
  match get_tool registry name with
  | some tool => .ok (tool.handler arguments)
  | none => .error (.toolNotFound name)

end Registry

/- ## Download tool cache behaviour

Embeds `download_file` from `src/server/server.py` lines 112-206: the
on-disk cache keyed by `f"{record_id}_{file_name}"`, the early return of
a cached file, the lookup of the file entry and its download link, and
the actual download.  The filesystem cache is a list of existing keys,
the record fetch and the HTTP GET are parameters. -/

namespace Download

/-- One entry of `record['files']`: its `filename` and optional
`links.download` URL. -/
structure ZFile where
  filename : String
  download_url : Option String
deriving DecidableEq

/-- The fields of the fetched record that `download_file` reads. -/
structure DownloadRecord where
  files : List ZFile := []
deriving DecidableEq

/-- The observable outcome of `download_file` (paths are reported
relative to the cache directory, whose absolute prefix is
environment-dependent). -/
inductive DownloadOutcome where
  | fromCache (cache_key : String)
  | downloaded (cache_key : String) (url : String)
  | fileNotFound
  | noDownloadUrl
  | httpError
deriving DecidableEq

/-- `download_file(record_id, file_name, force_download)`
(src/server/server.py lines 112-206).  `cache` holds the cache keys
already on disk, `record` is the fetched record document and `httpOk`
tells whether the GET of the download URL returns status 200.  Note that
the body never consults `force_download`. -/
def download_file (cache : List String) (record : DownloadRecord)
    (httpOk : Bool) (record_id file_name : String)
    (force_download : Bool) : DownloadOutcome :=
  let cache_key := record_id ++ "_" ++ file_name
  if cache.contains cache_key then .fromCache cache_key
  else
    match record.files.find? (fun f => f.filename = file_name) with
    | none => .fileNotFound
    | some file_info =>
        match file_info.download_url with
        | none => .noDownloadUrl
        | some url => if httpOk then .downloaded cache_key url else .httpError

end Download

/-- Spec-side reference definition: Jaccard similarity over finite string
sets, with the spec's empty-union convention (0.0 rather than a division
by zero). -/

def spec_jaccard (s1 s2 : Finset String) : ℚ :=
  if (s1 ∪ s2).card = 0 then 0 else ((s1 ∩ s2).card : ℚ) / ((s1 ∪ s2).card : ℚ)

/-- Spec-side: word-level Jaccard similarity over whitespace-split
lower-cased tokens, 0.0 if either title is empty. -/

def spec_title_similarity (t1 t2 : String) : ℚ :=
  if t1 = "" ∨ t2 = "" then 0
  else spec_jaccard (pySplit (pyLower t1)).toFinset (pySplit (pyLower t2)).toFinset

/-- Spec-side: Jaccard similarity over lower-cased string sets, 0.0 if
either set is empty. -/

def spec_set_similarity (s1 s2 : Finset String) : ℚ :=
  if s1 = ∅ ∨ s2 = ∅ then 0 else spec_jaccard s1 s2

/-- Example target record. -/

def exTarget : RelatedTool.PyRecord :=
  { id := "1"
    metadata := { title := some "alpha", keywords := some ["beta"] } }

/-- Example candidate returned by two different search terms. -/

def exCandidate : RelatedTool.PyRecord :=
  { id := "2"
    metadata := { title := some "alpha", keywords := some ["beta"] } }

/-- Example search collaborator. -/

def exSearch : String → ℕ → List RelatedTool.PyRecord := fun term _ =>
  if term = "alpha" ∨ term = "beta" then [exCandidate] else []

def exToolEntry : Registry.ToolEntry ℕ ℕ where
  name := "echo_plus_one"
  description := "adds one"
  handler := fun n => n + 1

def exRegistry : List (String × Registry.ToolEntry ℕ ℕ) :=
  [("echo_plus_one", exToolEntry)]

def exFetch : String → Option CompareTool.Metadata := fun rid =>
  if rid = "1" ∨ rid = "2" then some {} else none

/-- Two records whose "title" values coincide: a single comparison pair. -/
def exValues : List (String × Value) := [("1", .str "a"), ("2", .str "a")]

theorem min3_le_a {x y z w : ℕ} (h : x ≤ w) : min3 x y z ≤ w := by
  simp only [min3]; omega

theorem min3_le_b {x y z w : ℕ} (h : y ≤ w) : min3 x y z ≤ w := by
  simp only [min3]; omega

theorem min3_le_c {x y z w : ℕ} (h : z ≤ w) : min3 x y z ≤ w := by
  simp only [min3]; omega

theorem le_min3 {a x y z : ℕ} (h1 : a ≤ x) (h2 : a ≤ y) (h3 : a ≤ z) :
    a ≤ min3 x y z := by
  simp only [min3]; omega

theorem le_min3_add {a x y z c : ℕ} (h1 : a ≤ x + c) (h2 : a ≤ y + c)
    (h3 : a ≤ z + c) : a ≤ min3 x y z + c := by
  simp only [min3]; omega

theorem min3_comm12 (a b c : ℕ) : min3 a b c = min3 b a c := by
  simp only [min3]; omega

/-- Transposition identity for a 3×3 grid of `min3` values with row and
column increments; this is the combinatorial heart of the proof that the
last-character (snoc) Levenshtein recurrence follows from the
first-character (cons) one. -/

theorem min3_transpose (b1 b2 b3 b4 b5 b6 b7 b8 b9 u v : ℕ) :
    min3 (min3 (b1+1) (b2+1) (b3+v) + 1) (min3 (b4+1) (b5+1) (b6+v) + 1)
      (min3 (b7+1) (b8+1) (b9+v) + u)
    = min3 (min3 (b1+1) (b4+1) (b7+u) + 1) (min3 (b2+1) (b5+1) (b8+u) + 1)
      (min3 (b3+1) (b6+1) (b9+u) + v) := by
  apply le_antisymm <;>
  · refine le_min3 ?_ ?_ ?_ <;>
      first
        | (apply min3_le_a; (try simp only [min3]); omega)
        | (apply min3_le_b; (try simp only [min3]); omega)
        | (apply min3_le_c; (try simp only [min3]); omega)
        | (refine le_min3_add ?_ ?_ ?_ <;>
            first
              | (apply min3_le_a; (try simp only [min3]); omega)
              | (apply min3_le_b; (try simp only [min3]); omega)
              | (apply min3_le_c; (try simp only [min3]); omega))

theorem levAux_nil (ys : List Char) : levAux [] ys = ys.length := by
  cases ys <;> simp [levAux]

theorem levAux_nil_right (xs : List Char) : levAux xs [] = xs.length := by
  cases xs <;> simp [levAux]

theorem levAux_cons_cons (x y : Char) (xs ys : List Char) :
    levAux (x :: xs) (y :: ys) =
      min3 (levAux xs (y :: ys) + 1) (levAux (x :: xs) ys + 1)
        (levAux xs ys + levCost x y) := by
  simp [levAux]

theorem levCost_comm (x y : Char) : levCost x y = levCost y x := by
  simp [levCost, eq_comm]

/-- The classic Levenshtein distance is symmetric in its two arguments. -/

theorem levAux_comm : ∀ xs ys : List Char, levAux xs ys = levAux ys xs := by
  intro xs
  induction xs with
  | nil =>
      intro ys
      rw [levAux_nil, levAux_nil_right]
  | cons x xs' ihx =>
      intro ys
      induction ys with
      | nil => rw [levAux_nil, levAux_nil_right]
      | cons y ys' ihy =>
          rw [levAux_cons_cons, levAux_cons_cons]
          rw [← ihx (y :: ys'), ← ihy, ← ihx ys', levCost_comm y x]
          exact min3_comm12 _ _ _

/-- The last-character (snoc) recurrence for the classic Levenshtein
distance, derived from the first-character one. -/

theorem levAux_snoc (x y : Char) :
    ∀ xs ys : List Char,
      levAux (xs ++ [x]) (ys ++ [y]) =
        min3 (levAux xs (ys ++ [y]) + 1) (levAux (xs ++ [x]) ys + 1)
          (levAux xs ys + levCost x y) := by
  intro xs
  induction xs with
  | nil =>
      intro ys
      induction ys with
      | nil => exact levAux_cons_cons x y [] []
      | cons b ys' ih =>
          have h1 : levAux [x] (ys' ++ [y]) =
              min3 (levAux [] (ys' ++ [y]) + 1) (levAux [x] ys' + 1)
                (levAux [] ys' + levCost x y) := ih
          show levAux [x] (b :: (ys' ++ [y])) =
            min3 (levAux [] (b :: (ys' ++ [y])) + 1) (levAux [x] (b :: ys') + 1)
              (levAux [] (b :: ys') + levCost x y)
          rw [levAux_cons_cons x b [] (ys' ++ [y]), h1,
            levAux_cons_cons x b [] ys']
          simp only [levAux_nil, List.length_append, List.length_cons,
            List.length_nil]
          apply le_antisymm <;>
          · refine le_min3 ?_ ?_ ?_ <;>
              first
                | (apply min3_le_a; (try simp only [min3]); omega)
                | (apply min3_le_b; (try simp only [min3]); omega)
                | (apply min3_le_c; (try simp only [min3]); omega)
                | (refine le_min3_add ?_ ?_ ?_ <;>
                    first
                      | (apply min3_le_a; (try simp only [min3]); omega)
                      | (apply min3_le_b; (try simp only [min3]); omega)
                      | (apply min3_le_c; (try simp only [min3]); omega))
  | cons a xs' ihx =>
      intro ys
      induction ys with
      | nil =>
          have h1 : levAux (xs' ++ [x]) [y] =
              min3 (levAux xs' [y] + 1) (levAux (xs' ++ [x]) [] + 1)
                (levAux xs' [] + levCost x y) := ihx []
          show levAux (a :: (xs' ++ [x])) [y] =
            min3 (levAux (a :: xs') [y] + 1) (levAux (a :: (xs' ++ [x])) [] + 1)
              (levAux (a :: xs') [] + levCost x y)
          rw [levAux_cons_cons a y (xs' ++ [x]) [], h1,
            levAux_cons_cons a y xs' []]
          simp only [levAux_nil_right, List.length_append, List.length_cons,
            List.length_nil]
          apply le_antisymm <;>
          · refine le_min3 ?_ ?_ ?_ <;>
              first
                | (apply min3_le_a; (try simp only [min3]); omega)
                | (apply min3_le_b; (try simp only [min3]); omega)
                | (apply min3_le_c; (try simp only [min3]); omega)
                | (refine le_min3_add ?_ ?_ ?_ <;>
                    first
                      | (apply min3_le_a; (try simp only [min3]); omega)
                      | (apply min3_le_b; (try simp only [min3]); omega)
                      | (apply min3_le_c; (try simp only [min3]); omega))
      | cons b ys' ihy =>
          have hT1 : levAux (xs' ++ [x]) (b :: (ys' ++ [y])) =
              min3 (levAux xs' (b :: (ys' ++ [y])) + 1)
                (levAux (xs' ++ [x]) (b :: ys') + 1)
                (levAux xs' (b :: ys') + levCost x y) := ihx (b :: ys')
          have hT2 : levAux (a :: (xs' ++ [x])) (ys' ++ [y]) =
              min3 (levAux (a :: xs') (ys' ++ [y]) + 1)
                (levAux (a :: (xs' ++ [x])) ys' + 1)
                (levAux (a :: xs') ys' + levCost x y) := ihy
          have hT3 : levAux (xs' ++ [x]) (ys' ++ [y]) =
              min3 (levAux xs' (ys' ++ [y]) + 1) (levAux (xs' ++ [x]) ys' + 1)
                (levAux xs' ys' + levCost x y) := ihx ys'
          show levAux (a :: (xs' ++ [x])) (b :: (ys' ++ [y])) =
            min3 (levAux (a :: xs') (b :: (ys' ++ [y])) + 1)
              (levAux (a :: (xs' ++ [x])) (b :: ys') + 1)
              (levAux (a :: xs') (b :: ys') + levCost x y)
          rw [levAux_cons_cons a b (xs' ++ [x]) (ys' ++ [y]), hT1, hT2, hT3,
            levAux_cons_cons a b xs' (ys' ++ [y]),
            levAux_cons_cons a b (xs' ++ [x]) ys',
            levAux_cons_cons a b xs' ys']
          exact min3_transpose _ _ _ _ _ _ _ _ _ _ _

/-- The classic Levenshtein distance is invariant under reversing both
arguments. -/

theorem levAux_reverse : ∀ xs ys : List Char,
    levAux xs.reverse ys.reverse = levAux xs ys := by
  intro xs
  induction xs with
  | nil =>
      intro ys
      rw [List.reverse_nil, levAux_nil, levAux_nil, List.length_reverse]
  | cons x xs' ihx =>
      intro ys
      induction ys with
      | nil =>
          rw [List.reverse_nil, levAux_nil_right, levAux_nil_right,
            List.length_reverse]
      | cons y ys' ihy =>
          rw [List.reverse_cons, List.reverse_cons, levAux_snoc]
          rw [← List.reverse_cons y ys', ihx (y :: ys')]
          rw [← List.reverse_cons x xs', ihy, ihx ys']
          exact (levAux_cons_cons x y xs' ys').symm

theorem levRowAux_spec (c1 : Char) (ar : List Char) :
    ∀ (bs br : List Char),
      levRowAux c1 bs (levAux ar br :: rowFn ar br bs) (levAux (c1 :: ar) br)
        = rowFn (c1 :: ar) br bs := by
  intro bs
  induction bs with
  | nil => intro br; rfl
  | cons c cs ih =>
      intro br
      show (min3 ((rowFn ar br (c :: cs)).headD 0 + 1)
          (levAux (c1 :: ar) br + 1) (levAux ar br + levCost c1 c)) ::
          levRowAux c1 cs (rowFn ar br (c :: cs)) _ = _
      have hrow : rowFn ar br (c :: cs) = levAux ar (c :: br) :: rowFn ar (c :: br) cs := rfl
      rw [hrow]
      have hcell : min3 ((levAux ar (c :: br) :: rowFn ar (c :: br) cs).headD 0 + 1)
          (levAux (c1 :: ar) br + 1) (levAux ar br + levCost c1 c)
          = levAux (c1 :: ar) (c :: br) := by
        rw [levAux_cons_cons]
        rfl
      rw [hcell, ih (c :: br)]
      rfl

theorem levLoop_spec (s2 : List Char) :
    ∀ (as1 ar : List Char) (i : ℕ), i = ar.length →
      levLoop s2 as1 (levAux ar [] :: rowFn ar [] s2) i
        = levAux (List.reverseAux as1 ar) [] :: rowFn (List.reverseAux as1 ar) [] s2 := by
  intro as1
  induction as1 with
  | nil => intro ar i _; rfl
  | cons c rest ih =>
      intro ar i hi
      subst hi
      have hlen : levAux (c :: ar) [] = ar.length + 1 := by
        rw [levAux_nil_right]; rfl
      show levLoop s2 rest
          ((ar.length + 1) :: levRowAux c s2 (levAux ar [] :: rowFn ar [] s2) (ar.length + 1))
          (ar.length + 1)
        = levAux (List.reverseAux rest (c :: ar)) [] :: rowFn (List.reverseAux rest (c :: ar)) [] s2
      rw [← hlen, levRowAux_spec c ar s2 []]
      exact ih (c :: ar) (levAux (c :: ar) []) (by rw [hlen]; rfl)

theorem rowFn_nil_left : ∀ (bs br : List Char),
    rowFn [] br bs = (List.range bs.length).map (fun k => k + br.length + 1) := by
  intro bs
  induction bs with
  | nil => intro br; rfl
  | cons c cs ih =>
      intro br
      show levAux [] (c :: br) :: rowFn [] (c :: br) cs = _
      rw [levAux_nil, ih (c :: br)]
      show (c :: br).length :: List.map (fun k => k + (c :: br).length + 1) (List.range cs.length)
          = List.map (fun k => k + br.length + 1) (List.range (cs.length + 1))
      rw [List.range_succ_eq_map, List.map_cons, List.map_map]
      congr 1
      · simp
      · apply List.map_congr_left
        intro a _
        simp only [Function.comp_apply, List.length_cons]
        omega

theorem range_eq_initialRow (bs : List Char) :
    List.range (bs.length + 1) = levAux [] [] :: rowFn [] [] bs := by
  rw [rowFn_nil_left, levAux_nil, List.range_succ_eq_map]
  simp only [List.length_nil]

theorem fullRow_getLastD (ar : List Char) :
    ∀ (bs br : List Char),
      (levAux ar br :: rowFn ar br bs).getLastD 0 = levAux ar (List.reverseAux bs br) := by
  intro bs
  induction bs with
  | nil => intro br; rfl
  | cons c cs ih =>
      intro br
      show (levAux ar br :: levAux ar (c :: br) :: rowFn ar (c :: br) cs).getLastD 0
          = levAux ar (List.reverseAux cs (c :: br))
      rw [List.getLastD_cons, List.getLastD_cons]
      have h := ih (c :: br)
      rw [List.getLastD_cons] at h
      exact h

/-- The rolling-buffer DP of `_levenshtein_distance` computes the classic
Levenshtein distance of the reversed inputs. -/

theorem levenshtein_distance_go_eq (s1 s2 : List Char) :
    levenshtein_distance_go s1 s2 = levAux s1.reverse s2.reverse := by
  unfold levenshtein_distance_go
  by_cases h : s2.length = 0
  · rw [if_pos h]
    rw [List.length_eq_zero] at h
    subst h
    rw [List.reverse_nil, levAux_nil_right, List.length_reverse]
  · rw [if_neg h]
    rw [range_eq_initialRow s2, levLoop_spec s2 s1 [] 0 rfl]
    rw [fullRow_getLastD]
    rw [List.reverseAux_eq, List.reverseAux_eq]
    simp

/-- `_levenshtein_distance` agrees with the classic Levenshtein distance
on all inputs. -/

theorem levenshtein_distance_eq (s1 s2 : List Char) :
    levenshtein_distance s1 s2 = levAux s1 s2 := by
  unfold levenshtein_distance
  by_cases h : s1.length < s2.length
  · rw [if_pos h, levenshtein_distance_go_eq, levAux_reverse, levAux_comm]
  · rw [if_neg h, levenshtein_distance_go_eq, levAux_reverse]

theorem pyLower_length (s : String) : (pyLower s).length = s.length := by
  show (s.data.map Char.toLower).length = s.data.length
  rw [List.length_map]

theorem pyLower_eq_empty_iff (s : String) : pyLower s = "" ↔ s = "" := by
  constructor
  · intro h
    cases s with
    | mk data =>
        cases data with
        | nil => rfl
        | cons c cs => simp [pyLower, String.ext_iff] at h
  · intro h; subst h; rfl

theorem string_length_ne_zero {a : String} (h : a ≠ "") : a.length ≠ 0 := by
  intro hlen
  apply h
  cases a with
  | mk data =>
      cases data with
      | nil => rfl
      | cons c cs => simp [String.length] at hlen

/-- C1: for all strings, `_calculate_string_similarity` returns 0.0 if
either input is empty and otherwise `1 - d / max(len(a), len(b))`, where
both inputs are first lower-cased and `d` is the classic unit-cost
Levenshtein distance (`levAux`, the textbook insert/delete/substitute
recurrence, which `levenshtein_distance_eq` proves the source DP to
compute); in particular the Levenshtein distance of "kitten" and
"sitting" is 3. -/

theorem compare_string_similarity_is_levenshtein :
    (∀ a b : String,
      CompareTool._calculate_string_similarity a b =
        if a = "" ∨ b = "" then 0
        else 1 - (levAux (pyLower a).data (pyLower b).data : ℚ) /
          ((max a.length b.length : ℕ) : ℚ))
    ∧ levAux "kitten".data "sitting".data = 3 := by
  constructor
  · intro a b
    by_cases h : a = "" ∨ b = ""
    · rw [if_pos h]
      unfold CompareTool._calculate_string_similarity
      rw [if_pos h]
    · rw [if_neg h]
      unfold CompareTool._calculate_string_similarity
      rw [if_neg h]
      push_neg at h
      have hmax : ¬ (max (pyLower a).length (pyLower b).length = 0) := by
        rw [pyLower_length, pyLower_length]
        have := string_length_ne_zero h.1
        omega
      dsimp only
      rw [if_neg hmax]
      rw [levenshtein_distance_eq, pyLower_length, pyLower_length]
  · rw [← levenshtein_distance_eq]
    decide

/-- C6 counterexample: the compare tool's generic metric is not symmetric
on its string branch — `SequenceMatcher` gives
`ratio("tide", "diet") = 1/4` but `ratio("diet", "tide") = 1/2`. -/

theorem calculate_similarity_not_symmetric :
    CompareTool.calculate_similarity (.str "tide") (.str "diet") ≠
      CompareTool.calculate_similarity (.str "diet") (.str "tide") := by
  have h1 : ((get_matching_blocks "tide".data "diet".data).map (fun m => m.size)).sum = 1 := by
    decide
  have h2 : ((get_matching_blocks "diet".data "tide".data).map (fun m => m.size)).sum = 2 := by
    decide
  have e1 : CompareTool.calculate_similarity (.str "tide") (.str "diet") = 1 / 4 := by
    show smRatio (pyLower (pyStr (.str "tide"))).data (pyLower (pyStr (.str "diet"))).data = 1 / 4
    rw [show pyLower (pyStr (.str "tide")) = "tide" from by decide,
      show pyLower (pyStr (.str "diet")) = "diet" from by decide]
    unfold smRatio
    rw [h1]
    norm_num
  have e2 : CompareTool.calculate_similarity (.str "diet") (.str "tide") = 1 / 2 := by
    show smRatio (pyLower (pyStr (.str "diet"))).data (pyLower (pyStr (.str "tide"))).data = 1 / 2
    rw [show pyLower (pyStr (.str "diet")) = "diet" from by decide,
      show pyLower (pyStr (.str "tide")) = "tide" from by decide]
    unfold smRatio
    rw [h2]
    norm_num
  rw [e1, e2]
  norm_num

/-- C6 (amended): the similarity metrics are symmetric except for the
compare tool's generic string branch: `calculate_similarity` is symmetric
whenever both arguments are lists, and the related-records word-level
string metric and set metric are symmetric; the generic metric's string
branch (SequenceMatcher ratio) is not symmetric in general (see the
counterexample). -/

theorem similarity_metrics_symmetric_rest :
    (∀ l1 l2 : List String,
        CompareTool.calculate_similarity (.list l1) (.list l2) =
          CompareTool.calculate_similarity (.list l2) (.list l1))
    ∧ (∀ s1 s2 : String,
        RelatedTool._calculate_string_similarity s1 s2 =
          RelatedTool._calculate_string_similarity s2 s1)
    ∧ (∀ S1 S2 : Finset String,
        RelatedTool._calculate_set_similarity S1 S2 =
          RelatedTool._calculate_set_similarity S2 S1) := by
  refine ⟨?_, ?_, ?_⟩
  · intro l1 l2
    show (let set1 := (l1.map pyLower).toFinset
          let set2 := (l2.map pyLower).toFinset
          let inter := (set1 ∩ set2).card
          let union := (set1 ∪ set2).card
          if 0 < union then (inter : ℚ) / (union : ℚ) else 0) =
        (let set1 := (l2.map pyLower).toFinset
         let set2 := (l1.map pyLower).toFinset
         let inter := (set1 ∩ set2).card
         let union := (set1 ∪ set2).card
         if 0 < union then (inter : ℚ) / (union : ℚ) else 0)
    dsimp only
    rw [Finset.inter_comm ((l2.map pyLower).toFinset),
      Finset.union_comm ((l2.map pyLower).toFinset)]
  · intro s1 s2
    unfold RelatedTool._calculate_string_similarity
    dsimp only
    rw [Finset.inter_comm ((pySplit s2).toFinset) ((pySplit s1).toFinset),
      Finset.union_comm ((pySplit s2).toFinset) ((pySplit s1).toFinset)]
    simp only [or_comm]
  · intro S1 S2
    unfold RelatedTool._calculate_set_similarity
    dsimp only
    rw [Finset.inter_comm S2 S1, Finset.union_comm S2 S1]
    simp only [or_comm]

/-- C2: for every pair of records, the related-records composite
similarity equals `0.4 * title + 0.3 * keywords + 0.3 * creators`, where
the title score is word-level Jaccard similarity over whitespace-split
lower-cased tokens (0.0 if either title is empty) and the keyword and
creator scores are Jaccard similarity over lower-cased string sets (0.0
if either set is empty). -/

theorem related_similarity_weighted_formula (r1 r2 : RelatedTool.PyRecord) :
    RelatedTool._calculate_similarity r1 r2 =
      0.4 * spec_title_similarity (r1.metadata.title.getD "") (r2.metadata.title.getD "")
      + 0.3 * spec_set_similarity (RelatedTool.keywordSet r1) (RelatedTool.keywordSet r2)
      + 0.3 * spec_set_similarity (RelatedTool.creatorSet r1) (RelatedTool.creatorSet r2) := by
  have htitle : ∀ t1 t2 : String,
      RelatedTool._calculate_string_similarity (pyLower t1) (pyLower t2) =
        spec_title_similarity t1 t2 := by
    intro t1 t2
    unfold RelatedTool._calculate_string_similarity spec_title_similarity spec_jaccard
    simp only [pyLower_eq_empty_iff]
  have hset : ∀ S1 S2 : Finset String,
      RelatedTool._calculate_set_similarity S1 S2 = spec_set_similarity S1 S2 := by
    intro S1 S2
    unfold RelatedTool._calculate_set_similarity spec_set_similarity spec_jaccard
    rfl
  unfold RelatedTool._calculate_similarity
  dsimp only
  rw [htitle, hset, hset]
  norm_num

/-- C7: in the related-records tool every candidate scoring at least
`similarity_threshold` is kept (the threshold is inclusive) and every
candidate scoring strictly below it is excluded; the kept candidates are
sorted in descending order of similarity and the result is truncated to
at most `max_results` entries (with `total_count` counting the returned
list). -/

theorem get_related_records_filters_sorts_truncates (record_id : String)
    (record : RelatedTool.PyRecord)
    (search : String → ℕ → List RelatedTool.PyRecord) (max_results : ℕ)
    (similarity_threshold : ℚ) :
    (∀ e ∈ RelatedTool.relatedCandidates record_id record search max_results
        similarity_threshold, similarity_threshold ≤ e.similarity)
    ∧ (∀ term ∈ RelatedTool._extract_search_terms record,
        ∀ result ∈ search term max_results, result.id ≠ record_id →
          similarity_threshold ≤ RelatedTool._calculate_similarity record result →
          (⟨result.id, result.metadata.title.getD "",
            RelatedTool._calculate_similarity record result⟩ : RelatedTool.RelatedEntry)
            ∈ RelatedTool.relatedCandidates record_id record search max_results
              similarity_threshold)
    ∧ (RelatedTool.get_related_records record_id record search max_results
        similarity_threshold).related_records
        = (List.insertionSort RelatedTool.relOrder
            (RelatedTool.relatedCandidates record_id record search max_results
              similarity_threshold)).take max_results
    ∧ (List.insertionSort RelatedTool.relOrder
        (RelatedTool.relatedCandidates record_id record search max_results
          similarity_threshold)).Sorted RelatedTool.relOrder
    ∧ (RelatedTool.get_related_records record_id record search max_results
        similarity_threshold).related_records.length ≤ max_results
    ∧ (RelatedTool.get_related_records record_id record search max_results
        similarity_threshold).total_count
        = (RelatedTool.get_related_records record_id record search max_results
            similarity_threshold).related_records.length := by
  refine ⟨?_, ?_, rfl, List.sorted_insertionSort _ _, ?_, rfl⟩
  · intro e he
    unfold RelatedTool.relatedCandidates at he
    rw [List.mem_flatten] at he
    obtain ⟨l, hl, hel⟩ := he
    rw [List.mem_map] at hl
    obtain ⟨term, _, rfl⟩ := hl
    rw [List.mem_filterMap] at hel
    obtain ⟨result, _, hres⟩ := hel
    by_cases hid : result.id ≠ record_id
    · rw [if_pos hid] at hres
      dsimp only at hres
      by_cases hθ : similarity_threshold ≤ RelatedTool._calculate_similarity record result
      · rw [if_pos hθ] at hres
        cases hres
        exact hθ
      · rw [if_neg hθ] at hres
        cases hres
    · rw [if_neg hid] at hres
      cases hres
  · intro term hterm result hres hid hθ
    unfold RelatedTool.relatedCandidates
    rw [List.mem_flatten]
    refine ⟨(search term max_results).filterMap _, List.mem_map_of_mem _ hterm, ?_⟩
    rw [List.mem_filterMap]
    refine ⟨result, hres, ?_⟩
    rw [if_pos hid]
    dsimp only
    rw [if_pos hθ]
  · show ((List.insertionSort RelatedTool.relOrder _).take max_results).length ≤ max_results
    rw [List.length_take]
    exact min_le_left _ _

theorem exSim_eval :
    RelatedTool._calculate_similarity exTarget exCandidate = 7 / 10 := by
  have h1 : pyLower "alpha" = "alpha" := by decide
  have h2 : pySplit "alpha" = ["alpha"] := by decide
  have h3 : ((["alpha"].toFinset : Finset String) ∩ ["alpha"].toFinset).card = 1 := by decide
  have h4 : ((["alpha"].toFinset : Finset String) ∪ ["alpha"].toFinset).card = 1 := by decide
  have h5 : (["beta"].map pyLower) = ["beta"] := by decide
  have h6 : (["alpha"].toFinset : Finset String) = ∅ ∨ (["alpha"].toFinset : Finset String) = ∅ ↔ False := by
    simp
  unfold RelatedTool._calculate_similarity RelatedTool._calculate_string_similarity
    RelatedTool._calculate_set_similarity RelatedTool.keywordSet RelatedTool.creatorSet
  simp only [exTarget, exCandidate]
  simp only [Option.getD_some, Option.getD_none]
  rw [h1, h2]
  norm_num [h3, h4, h5, List.map_nil, List.toFinset_nil]
  rw [if_neg (by decide : ¬ ("alpha" : String) = "")]
  norm_num

theorem exCandidates_eval :
    RelatedTool.relatedCandidates "1" exTarget exSearch 5 (3 / 10) =
      [⟨"2", "alpha", 7 / 10⟩, ⟨"2", "alpha", 7 / 10⟩] := by
  have hterms : RelatedTool._extract_search_terms exTarget = ["alpha", "beta"] := by decide
  have hs1 : exSearch "alpha" 5 = [exCandidate] := by decide
  have hs2 : exSearch "beta" 5 = [exCandidate] := by decide
  have hne : ¬ (exCandidate.id = "1") := by decide
  have hle : (3 : ℚ) / 10 ≤ 7 / 10 := by norm_num
  have htitle : exCandidate.metadata.title.getD "" = "alpha" := by decide
  unfold RelatedTool.relatedCandidates
  rw [hterms]
  simp [hs1, hs2, hne, hle, htitle, exSim_eval, show exCandidate.id = "2" from rfl]

/-- C10: the related-records tool does not deduplicate candidates across
search terms: in the example scenario the same candidate is returned by
the searches for both search terms, and the response contains two entries
with record id "2", with `total_count = 2`. -/

theorem related_records_no_dedup :
    (RelatedTool.get_related_records "1" exTarget exSearch 5 (3 / 10)).related_records.map
        (fun e => e.record_id) = ["2", "2"]
    ∧ (RelatedTool.get_related_records "1" exTarget exSearch 5 (3 / 10)).total_count = 2 := by
  constructor <;>
  · unfold RelatedTool.get_related_records
    rw [exCandidates_eval]
    norm_num [List.insertionSort, List.orderedInsert, RelatedTool.relOrder]

theorem dictInsert_new {α : Type} (l : List (String × α)) (k : String) (v : α)
    (h : k ∉ l.map Prod.fst) : CompareTool.dictInsert l k v = l ++ [(k, v)] := by
  unfold CompareTool.dictInsert
  rw [if_neg]
  rw [List.any_eq_true]
  rintro ⟨p, hp, hpk⟩
  exact h (List.mem_map.mpr ⟨p, hp, by simpa using hpk⟩)

theorem foldl_dictInsert_nodup {α β : Type} (f : β → String) (g : β → α) :
    ∀ (l : List β) (acc : List (String × α)),
      (acc.map Prod.fst ++ l.map f).Nodup →
      l.foldl (fun acc p => CompareTool.dictInsert acc (f p) (g p)) acc
        = acc ++ l.map (fun p => (f p, g p)) := by
  intro l
  induction l with
  | nil => intro acc _; simp
  | cons p l' ih =>
      intro acc hnd
      have hmem : f p ∉ acc.map Prod.fst := by
        rw [List.nodup_append] at hnd
        intro hc
        exact hnd.2.2 hc (by simp)
      show List.foldl _ (CompareTool.dictInsert acc (f p) (g p)) l' = _
      rw [dictInsert_new acc (f p) (g p) hmem]
      rw [ih (acc ++ [(f p, g p)]) ?_]
      · simp
      · simp only [List.map_append, List.map_cons, List.map_nil]
        have : acc.map Prod.fst ++ [f p] ++ l'.map f
            = acc.map Prod.fst ++ (f p :: l'.map f) := by
          rw [List.append_assoc]; rfl
        rw [this]
        exact hnd

theorem filterMap_if_eq_filter_map {α β : Type} (P : α → Prop) [DecidablePred P]
    (h : α → β) :
    ∀ l : List α,
      l.filterMap (fun a => if P a then some (h a) else none)
        = (l.filter (fun a => P a)).map h := by
  intro l
  induction l with
  | nil => rfl
  | cons a l' ih =>
      by_cases hP : P a <;> simp [hP, ih]

/-- C3 (amended): in the compare-records tool, the per-field average
similarity equals the arithmetic mean of all pairwise scores for that
field whenever the `"id1_id2"` score keys are distinct (the scores live
in a dict keyed that way), and it is 0.0 exactly when there are no pairs
— not "fewer than 2": with a single pair the average is that pair's
score (see the counterexample); every pair scoring strictly below 0.8 is
collected as a difference entry with both raw values stringified; and
the overall similarity equals the arithmetic mean of all per-field
averages (for a nonempty, duplicate-free field list — `np.mean` of an
empty list is NaN). -/

theorem compare_field_contract :
    (∀ values : List (String × Value),
        (((CompareTool.orderedPairs values).map
            (fun p => CompareTool.scoreKey p.1.1 p.2.1)).Nodup) →
          CompareTool.averageSimilarity values =
            if CompareTool.orderedPairs values = [] then 0
            else CompareTool.listMean (CompareTool.pairScoreList values))
    ∧ (∀ values : List (String × Value),
        CompareTool.fieldDifferences values =
          ((CompareTool.orderedPairs values).filter
              (fun p => CompareTool.calculate_similarity p.1.2 p.2.2 < 4 / 5)).map
            (fun p => ⟨p.1.1, p.2.1, pyStr p.1.2, pyStr p.2.2⟩))
    ∧ (∀ (records : List (String × CompareTool.Metadata)) (fields : List String)
        (ids : List String), fields.Nodup →
          (CompareTool.compareOk ids fields records).field_comparisons =
            fields.map (fun field =>
              (field, ⟨CompareTool.similarityScores (CompareTool.fieldValues records field),
                CompareTool.averageSimilarity (CompareTool.fieldValues records field)⟩)))
    ∧ (∀ (records : List (String × CompareTool.Metadata)) (fields : List String)
        (ids : List String), fields ≠ [] → fields.Nodup →
          (CompareTool.compareOk ids fields records).overall_similarity =
            CompareTool.listMean (fields.map (fun field =>
              CompareTool.averageSimilarity (CompareTool.fieldValues records field)))) := by
  have hscores : ∀ values : List (String × Value),
      (((CompareTool.orderedPairs values).map
          (fun p => CompareTool.scoreKey p.1.1 p.2.1)).Nodup) →
        CompareTool.similarityScores values
          = (CompareTool.orderedPairs values).map
              (fun p => (CompareTool.scoreKey p.1.1 p.2.1,
                CompareTool.calculate_similarity p.1.2 p.2.2)) := by
    intro values hnd
    unfold CompareTool.similarityScores
    rw [foldl_dictInsert_nodup (fun p => CompareTool.scoreKey p.1.1 p.2.1)
      (fun p => CompareTool.calculate_similarity p.1.2 p.2.2)
      (CompareTool.orderedPairs values) [] (by simpa using hnd)]
    simp
  have hfc : ∀ (records : List (String × CompareTool.Metadata)) (fields : List String),
      fields.Nodup →
        CompareTool.buildFieldComparisons records fields =
          fields.map (fun field =>
            (field, ⟨CompareTool.similarityScores (CompareTool.fieldValues records field),
              CompareTool.averageSimilarity (CompareTool.fieldValues records field)⟩)) := by
    intro records fields hnd
    unfold CompareTool.buildFieldComparisons
    rw [foldl_dictInsert_nodup (fun field => field)
      (fun field => (⟨CompareTool.similarityScores (CompareTool.fieldValues records field),
        CompareTool.averageSimilarity (CompareTool.fieldValues records field)⟩ :
          CompareTool.FieldComparison))
      fields [] (by simpa using hnd)]
    simp
  refine ⟨?_, ?_, ?_, ?_⟩
  · intro values hnd
    unfold CompareTool.averageSimilarity
    rw [hscores values hnd]
    by_cases hp : CompareTool.orderedPairs values = []
    · rw [if_pos hp, hp]
      simp
    · rw [if_neg hp]
      rw [if_neg (by simpa [List.isEmpty_iff] using hp)]
      unfold CompareTool.pairScoreList
      rw [List.map_map]
      rfl
  · intro values
    unfold CompareTool.fieldDifferences
    exact filterMap_if_eq_filter_map _ _ _
  · intro records fields ids hnd
    exact hfc records fields hnd
  · intro records fields ids hne hnd
    show CompareTool.overallSimilarity (CompareTool.buildFieldComparisons records fields) = _
    rw [hfc records fields hnd]
    unfold CompareTool.overallSimilarity
    rw [List.map_map]
    rfl

theorem dictInsert_keys_of_any {α : Type} (l : List (String × α)) (k : String) (v : α)
    (h : l.any (fun p => p.1 = k)) :
    (CompareTool.dictInsert l k v).map Prod.fst = l.map Prod.fst := by
  unfold CompareTool.dictInsert
  rw [if_pos h, List.map_map]
  apply List.map_congr_left
  intro p _
  by_cases hpk : p.1 = k
  · simp [Function.comp, hpk]
  · simp [Function.comp, hpk]

theorem mem_dictInsert_keys {α : Type} (l : List (String × α)) (k rid : String) (v : α) :
    rid ∈ (CompareTool.dictInsert l k v).map Prod.fst ↔ rid ∈ l.map Prod.fst ∨ rid = k := by
  by_cases h : l.any (fun p => p.1 = k)
  · rw [dictInsert_keys_of_any l k v h]
    have hk : k ∈ l.map Prod.fst := by
      rw [List.any_eq_true] at h
      obtain ⟨p, hp, hpk⟩ := h
      exact List.mem_map.mpr ⟨p, hp, by simpa using hpk⟩
    constructor
    · exact Or.inl
    · rintro (hm | rfl)
      · exact hm
      · exact hk
  · unfold CompareTool.dictInsert
    rw [if_neg h]
    simp

theorem fetchRecords_keys (f : String → Option CompareTool.Metadata) :
    ∀ (ids : List String) (acc : List (String × CompareTool.Metadata)) (rid : String),
      rid ∈ (ids.foldl (fun acc record_id =>
          match f record_id with
          | some m => CompareTool.dictInsert acc record_id m
          | none => acc) acc).map Prod.fst
        ↔ rid ∈ acc.map Prod.fst ∨ (rid ∈ ids ∧ f rid ≠ none) := by
  intro ids
  induction ids with
  | nil => intro acc rid; simp
  | cons i rest ih =>
      intro acc rid
      show rid ∈ (rest.foldl _ (match f i with
          | some m => CompareTool.dictInsert acc i m
          | none => acc)).map Prod.fst ↔ _
      rcases hv : f i with _ | m
      · rw [ih]
        constructor
        · rintro (h | h)
          · exact Or.inl h
          · exact Or.inr ⟨List.mem_cons_of_mem _ h.1, h.2⟩
        · rintro (h | ⟨hmem, hne⟩)
          · exact Or.inl h
          · rcases List.mem_cons.mp hmem with rfl | h
            · exact absurd hv hne
            · exact Or.inr ⟨h, hne⟩
      · rw [ih, mem_dictInsert_keys]
        constructor
        · rintro ((h | rfl) | h)
          · exact Or.inl h
          · exact Or.inr ⟨List.mem_cons_self _ _, by simp [hv]⟩
          · exact Or.inr ⟨List.mem_cons_of_mem _ h.1, h.2⟩
        · rintro (h | ⟨hmem, hne⟩)
          · exact Or.inl (Or.inl h)
          · rcases List.mem_cons.mp hmem with rfl | h
            · exact Or.inl (Or.inr rfl)
            · exact Or.inr ⟨h, hne⟩

/-- C4: `compare_records` skips (does not abort on) every record id whose
fetch fails, and fails with the insufficient-records error exactly when
fewer than 2 record documents were successfully fetched; a successful
result exists only when at least 2 documents were fetched. -/

theorem compare_records_insufficient_iff (request : CompareTool.CompareRecordsRequest)
    (get_metadata : String → Option CompareTool.Metadata) :
    (CompareTool.compare_records request get_metadata
        = .error .insufficientRecords
      ↔ (CompareTool.fetchRecords request.record_ids get_metadata).length < 2)
    ∧ (∀ rid, rid ∈ (CompareTool.fetchRecords request.record_ids get_metadata).map Prod.fst
        ↔ rid ∈ request.record_ids ∧ get_metadata rid ≠ none)
    ∧ (∀ resp, CompareTool.compare_records request get_metadata = .ok resp →
        2 ≤ (CompareTool.fetchRecords request.record_ids get_metadata).length) := by
  refine ⟨?_, ?_, ?_⟩
  · unfold CompareTool.compare_records
    by_cases h : (CompareTool.fetchRecords request.record_ids get_metadata).length < 2
    · simp [h]
    · simp [h]
  · intro rid
    exact fetchRecords_keys get_metadata request.record_ids [] rid |>.trans (by simp)
  · intro resp h
    unfold CompareTool.compare_records at h
    by_cases hlen : (CompareTool.fetchRecords request.record_ids get_metadata).length < 2
    · rw [if_pos hlen] at h
      cases h
    · omega

/-- C5: `dispatch_tool_call(name, arguments)` fails with a `ToolNotFound`
error carrying the requested name when no tool with that name is
registered, and otherwise invokes the registered handler on the argument
mapping and returns the handler's result unmodified. -/

theorem dispatch_tool_call_spec {Args Result : Type}
    (registry : List (String × Registry.ToolEntry Args Result)) (name : String)
    (arguments : Args) :
    (Registry.get_tool registry name = none →
      Registry.dispatch_tool_call registry name arguments
        = .error (.toolNotFound name))
    ∧ (∀ t, Registry.get_tool registry name = some t →
      Registry.dispatch_tool_call registry name arguments = .ok (t.handler arguments)) := by
  constructor
  · intro h
    unfold Registry.dispatch_tool_call
    rw [h]
  · intro t h
    unfold Registry.dispatch_tool_call
    rw [h]

theorem dispatch_tool_call_spec_witness :
    Registry.dispatch_tool_call ([] : List (String × Registry.ToolEntry ℕ ℕ))
        "nonexistent_tool" 0 = .error (.toolNotFound "nonexistent_tool")
    ∧ Registry.dispatch_tool_call exRegistry "echo_plus_one" 41 = .ok 42 :=
  ⟨(dispatch_tool_call_spec [] "nonexistent_tool" 0).1 rfl,
    (dispatch_tool_call_spec exRegistry "echo_plus_one" 41).2 exToolEntry (by rfl)⟩

theorem buildFieldComparisons_eq_map (records : List (String × CompareTool.Metadata))
    (fields : List String) (hnd : fields.Nodup) :
    CompareTool.buildFieldComparisons records fields =
      fields.map (fun field =>
        (field, ⟨CompareTool.similarityScores (CompareTool.fieldValues records field),
          CompareTool.averageSimilarity (CompareTool.fieldValues records field)⟩)) := by
  unfold CompareTool.buildFieldComparisons
  rw [foldl_dictInsert_nodup (fun field => field)
    (fun field => (⟨CompareTool.similarityScores (CompareTool.fieldValues records field),
      CompareTool.averageSimilarity (CompareTool.fieldValues records field)⟩ :
        CompareTool.FieldComparison))
    fields [] (by simpa using hnd)]
  simp

/-- C8: when `compare_records` is invoked without an explicit list of
field names, the fields compared are exactly
`title, authors, topics, publication_date`, in that order. -/

theorem compare_records_default_fields (ids : List String)
    (get_metadata : String → Option CompareTool.Metadata) :
    (CompareTool.compareFieldsUsed { record_ids := ids }
        = ["title", "authors", "topics", "publication_date"])
    ∧ (∀ resp, CompareTool.compare_records { record_ids := ids } get_metadata = .ok resp →
        resp.field_comparisons.map Prod.fst
          = ["title", "authors", "topics", "publication_date"]) := by
  constructor
  · rfl
  · intro resp h
    unfold CompareTool.compare_records at h
    by_cases hlen : (CompareTool.fetchRecords ids get_metadata).length < 2
    · rw [if_pos hlen] at h
      cases h
    · rw [if_neg hlen] at h
      cases h
      show (CompareTool.compareOk ids
          (CompareTool.compareFieldsUsed { record_ids := ids })
          (CompareTool.fetchRecords ids get_metadata)).field_comparisons.map Prod.fst = _
      show (CompareTool.buildFieldComparisons (CompareTool.fetchRecords ids get_metadata)
          ["title", "authors", "topics", "publication_date"]).map Prod.fst = _
      rw [buildFieldComparisons_eq_map _ _ (by decide)]
      rw [List.map_map]
      rfl

theorem compare_records_default_fields_witness :
    (CompareTool.compareOk ["1", "2"]
        (CompareTool.compareFieldsUsed { record_ids := ["1", "2"] })
        (CompareTool.fetchRecords ["1", "2"] exFetch)).field_comparisons.map Prod.fst
      = ["title", "authors", "topics", "publication_date"] :=
  (compare_records_default_fields ["1", "2"] exFetch).2
    (CompareTool.compareOk ["1", "2"]
      (CompareTool.compareFieldsUsed { record_ids := ["1", "2"] })
      (CompareTool.fetchRecords ["1", "2"] exFetch)) rfl

/-- C9 (code bug): whenever the cache holds the key
`{record_id}_{file_name}`, `download_file` returns the cached file even
when `force_download` is set — the body never reads the flag, although
its own parameter documentation promises a forced re-download. -/

theorem download_file_ignores_force_flag :
    (∀ (cache : List String) (record : Download.DownloadRecord) (httpOk : Bool)
        (record_id file_name : String) (force_download : Bool),
        cache.contains (record_id ++ "_" ++ file_name) = true →
        Download.download_file cache record httpOk record_id file_name force_download
          = .fromCache (record_id ++ "_" ++ file_name))
    ∧ Download.download_file ["r1_data.csv"]
        { files := [{ filename := "data.csv", download_url := some "u" }] }
        true "r1" "data.csv" true = .fromCache "r1_data.csv" := by
  constructor
  · intro cache record httpOk record_id file_name force_download h
    unfold Download.download_file
    rw [if_pos h]
  · decide

theorem download_file_ignores_force_flag_witness :
    Download.download_file ["r1_data.csv"] { files := [] } false "r1" "data.csv" true
      = .fromCache "r1_data.csv" :=
  download_file_ignores_force_flag.1 ["r1_data.csv"] { files := [] } false "r1" "data.csv"
    true (by decide)

/-- Witness for C4 at a concrete input (both ids resolve). -/

theorem compare_records_insufficient_iff_witness :
    2 ≤ (CompareTool.fetchRecords ["1", "2"] exFetch).length :=
  (compare_records_insufficient_iff { record_ids := ["1", "2"] } exFetch).2.2
    (CompareTool.compareOk ["1", "2"]
      (CompareTool.compareFieldsUsed { record_ids := ["1", "2"] })
      (CompareTool.fetchRecords ["1", "2"] exFetch)) rfl

theorem compare_average_one_pair_not_zero :
    (CompareTool.orderedPairs exValues).length < 2
    ∧ CompareTool.averageSimilarity exValues = 1 := by
  have hm : ((get_matching_blocks "a".data "a".data).map (fun m => m.size)).sum = 1 := by
    decide
  have hv : CompareTool.calculate_similarity (.str "a") (.str "a") = 1 := by
    show smRatio (pyLower (pyStr (.str "a"))).data (pyLower (pyStr (.str "a"))).data = 1
    rw [show pyLower (pyStr (.str "a")) = "a" from by decide]
    unfold smRatio
    rw [hm]
    norm_num
  constructor
  · decide
  · unfold CompareTool.averageSimilarity CompareTool.similarityScores
    norm_num [exValues, CompareTool.orderedPairs, CompareTool.dictInsert,
      CompareTool.listMean, CompareTool.scoreKey, hv]

/-- Witness for C3 at a concrete input (distinct score keys). -/

theorem compare_field_contract_witness :
    CompareTool.averageSimilarity exValues =
      if CompareTool.orderedPairs exValues = [] then 0
      else CompareTool.listMean (CompareTool.pairScoreList exValues) :=
  compare_field_contract.1 exValues (by decide)

/-- Witness for C7 at the example scenario: a concrete kept entry indeed
scores at least the threshold. -/

theorem get_related_records_filters_witness :
    (3 : ℚ) / 10 ≤ (⟨"2", "alpha", 7 / 10⟩ : RelatedTool.RelatedEntry).similarity :=
  (get_related_records_filters_sorts_truncates "1" exTarget exSearch 5 (3 / 10)).1
    ⟨"2", "alpha", 7 / 10⟩ (by rw [exCandidates_eval]; exact List.mem_cons_self _ _)
